import Mathlib

/-
Verification of the mock-resolution and request-dispatch engine of
data-mocks-server (src/index.ts, src/types.ts).

The embedding models:
  - mocks, scenario entries and the scenario map;
  - `reduceAllMocksForScenarios` (scenario merge with group exclusivity and
    default-override semantics);
  - `createRouter` (route-table construction with its HTTP-method switch);
  - the `PUT /modify-scenarios` request handler and its server state;
  - `mergeMocks`, `getInitialContext`, `getMocksAndInitialContext`,
    `updateContext` (context handling of the request dispatch path);
  - `getMatchAndParams` / `getHttpMockAndParams` (first-match HTTP dispatch),
    with the `path-to-regexp` pattern compilation modelled from the spec,
    since that library is an external dependency of the sources.

JavaScript objects are modelled as association lists (first binding wins on
lookup, as JavaScript object keys are unique); arbitrary JSON payload values
are modelled by `Nat` identifiers, which is enough to distinguish responses
and context values.
-/

namespace DataMocksServer

/-- A mock, as consumed by `reduceAllMocksForScenarios` and `createRouter`:
an HTTP method, the textual form of its url (the code compares urls via
`url.toString()`), and a payload identifier standing for its response. -/
structure Mock where
  method : String
  url : String
  response : Nat
deriving DecidableEq, Repr

/-- A context object: an open key-value map (JavaScript object). -/
abbrev Ctx := List (String × Nat)

/-- A scenario entry (and also a default mock set): either a bare mock array,
or an object with an optional group, an optional context and a mock list
(types.ts, `Scenarios` / `Default`). -/
inductive MockSet where
  | arr (mocks : List Mock)
  | obj (group : Option String) (context : Option Ctx) (mocks : List Mock)
deriving DecidableEq, Repr

/-- The scenario map supplied at startup (a JavaScript object keyed by
scenario name). -/
abbrev Scenarios := List (String × MockSet)

/-- Association-list lookup, first binding wins (JavaScript property read). -/
def alistLookup {β : Type} : String → List (String × β) → Option β
  | _, [] => none
  | k, (k1, v1) :: rest => if k = k1 then some v1 else alistLookup k rest

/-- The string a group value turns into when used as a JavaScript object key:
`undefined` coerces to the key "undefined" in `result.groups[mocks.group]`. -/
def groupKey : Option String → String
  | some g => g
  | none => "undefined"

/-- The message of the error thrown on a group conflict
(`reduceAllMocksForScenarios`). -/
def conflictMessage (selected prev grp : String) : String :=
  "Scenario \"" ++ selected ++ "\" cannot be selected, because scenario \"" ++
    prev ++ "\" from group \"" ++ grp ++ "\" has already been selected"

/-- The `selectedScenarios.reduce` walk of `reduceAllMocksForScenarios`:
threads the `groups` record and the accumulated `reducedMocks`, skips unknown
names, concatenates bare arrays, and for object entries throws when the group
key is already bound to a truthy (non-empty) scenario name. -/
def scenarioFold (smap : Scenarios) :
    List String → List (String × String) → List Mock →
      Except String (List (String × String) × List Mock)
  | [], groups, reduced => .ok (groups, reduced)
  | s :: rest, groups, reduced =>
    match alistLookup s smap with
    | none => scenarioFold smap rest groups reduced
    | some (.arr mocks) => scenarioFold smap rest groups (reduced ++ mocks)
    | some (.obj grp _ mocks) =>
      match alistLookup (groupKey grp) groups with
      | some prev =>
        if prev = "" then
          scenarioFold smap rest ((groupKey grp, s) :: groups) (reduced ++ mocks)
        else
          .error (conflictMessage s prev (groupKey grp))
      | none =>
        scenarioFold smap rest ((groupKey grp, s) :: groups) (reduced ++ mocks)

/-- Url/method signature collision used by the final default filter:
`mock.url.toString() === defaultMock.url.toString() && defaultMock.method ===
mock.method`. -/
def collides (m dm : Mock) : Bool :=
  m.url == dm.url && dm.method == m.method

/-- `reduceAllMocksForScenarios` (src/index.ts): with no selection, the
defaults verbatim; otherwise the scenario walk, then the defaults whose
signature collides with no reduced mock, followed by the reduced mocks. -/
def reduceAllMocksForScenarios (defaultMocks : List Mock) (smap : Scenarios)
    (selectedScenarios : List String) : Except String (List Mock) :=
  if selectedScenarios.length = 0 then .ok defaultMocks
  else
    match scenarioFold smap selectedScenarios [] [] with
    | .error e => .error e
    | .ok (_, reducedMocks) =>
      .ok (defaultMocks.filter
            (fun dm => !(reducedMocks.any (fun m => collides m dm))) ++
          reducedMocks)

/-- The first mock of a route table matching a given method and url text:
this is the route an incoming request with that method and exact url is
served, since the router matches registered routes in order. -/
def findBySig (l : List Mock) (method url : String) : Option Mock :=
  l.find? (fun m => m.method == method && m.url == url)

/-- The methods handled by the `switch` of `createRouter`. -/
def isRoutableMethod (m : String) : Bool :=
  m == "GET" || m == "POST" || m == "PUT" || m == "DELETE"

/-- The message of the error thrown by the `default` arm of the method
switch in `createRouter`. -/
def unrecognisedMethodMessage (m : String) : String :=
  "Unrecognised HTTP method " ++ m ++ " - please check your mock configuration"

/-- The `mocks.forEach` of `createRouter`: registers each mock as a route in
order and throws at the first mock whose method is outside the switch. -/
def buildRoutes : List Mock → Except String (List Mock)
  | [] => .ok []
  | m :: rest =>
    if isRoutableMethod m.method then
      match buildRoutes rest with
      | .error e => .error e
      | .ok r => .ok (m :: r)
    else
      .error (unrecognisedMethodMessage m.method)

/-- `createRouter` (src/index.ts): resolve the mock list for the selection,
then build the route table; either step may throw. -/
def createRouter (defaults : List Mock) (smap : Scenarios)
    (sel : List String) : Except String (List Mock) :=
  match reduceAllMocksForScenarios defaults smap sel with
  | .error e => .error e
  | .ok mocks => buildRoutes mocks

/-- The members of the `HttpMethod` union type (src/types.ts line 18). -/
def httpMethodValues : List String := ["GET", "POST", "PUT", "DELETE", "PATCH"]

/-- The mutable server state owned by `run`: the active selection and the
active route table. -/
structure ServerState where
  selectedScenarios : List String
  router : List Mock
deriving DecidableEq, Repr

/-- A JSON body of the form written by `res.json` for the activation API. -/
structure JsonMessage where
  message : String
deriving DecidableEq, Repr

/-- The body of a handler response: empty (`res.sendStatus`) or a JSON
message object. -/
inductive ResponseBody where
  | empty
  | json (m : JsonMessage)
deriving DecidableEq, Repr

/-- A handler response: status code and body. -/
structure HandlerResponse where
  status : Nat
  body : ResponseBody
deriving DecidableEq, Repr

/-- The `scenarios` field of the request body of `PUT /modify-scenarios`:
either not an array (the `Array.isArray` guard fails) or an array of names. -/
inductive Body where
  | notArray
  | arr (scenarios : List String)

/-- The 400 message for a non-array body. -/
def notArrayMessage : String :=
  "\"scenarios\" must be an array of scenario names (empty array allowed)"

/-- The 400 message for an unknown scenario name. -/
def doesNotExistMessage (s : String) : String :=
  "Scenario \"" ++ s ++ "\" does not exist"

/-- `Object.keys(scenarioMocks)`. -/
def scenarioNames (smap : Scenarios) : List String := smap.map Prod.fst

/-- `Array.includes` on a list of names. -/
def includesName : List String → String → Bool
  | [], _ => false
  | n :: rest, s => if s = n then true else includesName rest s

/-- The validation loop of the `PUT /modify-scenarios` handler: the first
body name missing from the configured scenario names, if any. -/
def firstUnknown : List String → List String → Option String
  | [], _ => none
  | n :: rest, known =>
    if includesName known n then firstUnknown rest known else some n

/-- The `PUT /modify-scenarios` handler (src/index.ts): 400 when the body is
not an array; 400 naming the first unknown scenario; otherwise build the new
router, answering 500 with the thrown message and leaving the state
untouched on failure, or swapping selection and router and answering 204. -/
def modifyScenariosHandler (defaults : List Mock) (smap : Scenarios)
    (st : ServerState) : Body → ServerState × HandlerResponse
  | .notArray => (st, ⟨400, .json ⟨notArrayMessage⟩⟩)
  | .arr names =>
    match firstUnknown names (scenarioNames smap) with
    | some s => (st, ⟨400, .json ⟨doesNotExistMessage s⟩⟩)
    | none =>
      match createRouter defaults smap names with
      | .error e => (st, ⟨500, .json ⟨e⟩⟩)
      | .ok r => (⟨names, r⟩, ⟨204, .empty⟩)

/-- The mock list of a default set or scenario entry
(`Array.isArray(scenarioMock) ? scenarioMock : scenarioMock.mocks`). -/
def entryMocks : MockSet → List Mock
  | .arr ms => ms
  | .obj _ _ ms => ms

/-- The optional context of a default set or scenario entry. -/
def entryContext : MockSet → Option Ctx
  | .arr _ => none
  | .obj _ c _ => c

/-- `mergeMocks` (src/index.ts): concatenate the mock lists of the given
sets, in order. -/
def mergeMocks (sets : List MockSet) : List Mock :=
  sets.foldl (fun acc s => acc ++ entryMocks s) []

/-- JavaScript property read on a context object. -/
def getValue (c : Ctx) (k : String) : Option Nat := alistLookup k c

/-- Left-biased choice on optional values, used to state merge semantics. -/
def orOpt {β : Type} (x y : Option β) : Option β :=
  match x with
  | some v => some v
  | none => y

/-- The JavaScript object spread `\x7b...a, ...b\x7d`: the keys of `a` in
order, each taking the value of `b` when `b` also binds it, followed by the
keys of `b` absent from `a`, in order. -/
def objAssign (a b : Ctx) : Ctx :=
  a.map (fun kv => (kv.1, (getValue b kv.1).getD kv.2)) ++
    b.filter (fun kv => (getValue a kv.1).isNone)

/-- The argument of `updateContext`: a partial context object or an updater
function (`Context | ((context: Context) => Context)`). -/
inductive PartialCtx where
  | obj (c : Ctx)
  | fn (f : Ctx → Ctx)

/-- `updateContext` (src/index.ts): spreads the prior context, then the
partial object, or the result of calling the updater on the prior context. -/
def updateContext (context : Ctx) (p : PartialCtx) : Ctx :=
  objAssign context
    (match p with
     | .obj c => c
     | .fn f => f context)

/-- One step of `getInitialContext`: object entries with a context are merged
over the accumulator; bare arrays and entries without a context are skipped. -/
def contextStep (c : Ctx) (s : MockSet) : Ctx :=
  match entryContext s with
  | some cc => objAssign c cc
  | none => c

/-- `getInitialContext` (src/index.ts): fold the spread merge over the given
sets, starting from the empty object. -/
def getInitialContext (sets : List MockSet) : Ctx :=
  sets.foldl contextStep []

/-- Specification-side reading of the context merge: the value a key gets is
the one from the last set that binds it (later wins). -/
def lastContextValue : List MockSet → String → Option Nat
  | [], _ => none
  | s :: rest, k =>
    orOpt (lastContextValue rest k)
      (match entryContext s with
       | some c => getValue c k
       | none => none)

/-- `getMocksAndInitialContext` (src/index.ts): look every selected name up
in the scenario map, place the default set first, and return the merged mock
list together with the initial context. In the source a missing name makes
the later `.mocks` read throw a TypeError; that failure is modelled as
`none`. -/
def getMocksAndInitialContext (defaultMocks : MockSet) (smap : Scenarios)
    (sel : List String) : Option (List Mock × Ctx) :=
  match sel.mapM (fun s => alistLookup s smap) with
  | none => none
  | some sets =>
    some (mergeMocks (defaultMocks :: sets),
      getInitialContext (defaultMocks :: sets))

/-- Splitting a character list at every slash (`String.split` on "/"). -/
def splitOnSlashAux : List Char → List Char → List (List Char)
  | [], cur => [cur.reverse]
  | c :: rest, cur =>
    if c = '/' then cur.reverse :: splitOnSlashAux rest []
    else splitOnSlashAux rest (c :: cur)

/-- Split a path or pattern string into its slash-separated segments. -/
def splitOnSlash (s : String) : List (List Char) :=
  splitOnSlashAux s.data []

/-- Value of a hexadecimal digit, if any. -/
def hexDigitVal (c : Char) : Option Nat :=
  if '0' ≤ c ∧ c ≤ '9' then some (c.toNat - '0'.toNat)
  else if 'a' ≤ c ∧ c ≤ 'f' then some (c.toNat - 'a'.toNat + 10)
  else if 'A' ≤ c ∧ c ≤ 'F' then some (c.toNat - 'A'.toNat + 10)
  else none

/-- Modelled from the spec: percent-decoding of captured parameter values
(`decodeURIComponent`, a JavaScript builtin absent from the sources); the
spec requires URL-encoded parameter values to decode before being handed to
response logic. Single-byte escapes are decoded; malformed escapes are kept
as written. -/
def percentDecodeList : List Char → List Char
  | [] => []
  | '%' :: a :: b :: rest =>
    (match hexDigitVal a, hexDigitVal b with
     | some ha, some hb => Char.ofNat (16 * ha + hb) :: percentDecodeList rest
     | _, _ => '%' :: percentDecodeList (a :: b :: rest))
  | c :: rest => c :: percentDecodeList rest

/-- Percent-decoding on strings. -/
def decodeURIComponent (s : String) : String :=
  String.mk (percentDecodeList s.data)

/-- Modelled from the spec: the `path-to-regexp` compilation used by
`getMatchAndParams` is a library dependency not present in the sources. Per
the spec, a pattern is a path template whose named `:param` segments capture
exactly one non-empty path segment and whose other segments must match
literally, against the full request path; captures are collected in order
under the name following the colon. -/
def matchSegments : List (List Char) → List (List Char) →
    Option (List (String × String))
  | [], [] => some []
  | p :: ps, s :: ss =>
    (match p with
     | ':' :: name =>
       if s.isEmpty then none
       else
         match matchSegments ps ss with
         | none => none
         | some rest => some ((String.mk name, String.mk s) :: rest)
     | _ => if p = s then matchSegments ps ss else none)
  | _, _ => none

/-- `getMatchAndParams` (src/index.ts): compile the mock url, run it against
the request path; on a match, collect the named captures, percent-decoded,
in order; otherwise report no match and empty params. -/
def getMatchAndParams (reqPath : String) (mockUrl : String) :
    Bool × List (String × String) :=
  match matchSegments (splitOnSlash mockUrl) (splitOnSlash reqPath) with
  | none => (false, [])
  | some ps => (true, ps.map (fun kv => (kv.1, decodeURIComponent kv.2)))

/-- An incoming HTTP request as seen by the matcher: method and path. -/
structure HttpRequest where
  method : String
  path : String
deriving DecidableEq, Repr

/-- The predicate of the `httpMocks.find` callback in `getHttpMockAndParams`:
`mock.method === req.method && match`. -/
def matchesReq (req : HttpRequest) (m : Mock) : Bool :=
  m.method == req.method && (getMatchAndParams req.path m.url).1

/-- `getHttpMockAndParams` (src/index.ts): `Array.find` over the http mocks;
the `params` variable is assigned for every examined mock, so the returned
params are those of the matched mock, or of the last examined mock when none
matches. -/
def getHttpMockAndParams (req : HttpRequest) :
    List Mock → Option Mock × List (String × String)
  | [] => (none, [])
  | m :: rest =>
    if matchesReq req m then (some m, (getMatchAndParams req.path m.url).2)
    else if rest.isEmpty then (none, (getMatchAndParams req.path m.url).2)
    else getHttpMockAndParams req rest

/-- Outcome tag of an activation attempt, used in concrete checks. -/
def exceptIsError {α : Type} : Except String α → Bool
  | .error _ => true
  | .ok _ => false

section Lemmas

lemma orOpt_none_right {β : Type} (x : Option β) : orOpt x none = x := by
  cases x <;> rfl

lemma orOpt_assoc {β : Type} (x y z : Option β) :
    orOpt (orOpt x y) z = orOpt x (orOpt y z) := by
  cases x <;> rfl

lemma alistLookup_append {β : Type} (k : String) (l1 l2 : List (String × β)) :
    alistLookup k (l1 ++ l2) = orOpt (alistLookup k l1) (alistLookup k l2) := by
  induction l1 with
  | nil => rfl
  | cons kv rest ih =>
    obtain ⟨k1, v1⟩ := kv
    simp only [List.cons_append, alistLookup]
    by_cases h : k = k1
    · simp [h, orOpt]
    · simp [h, ih]

lemma alistLookup_mapValues (F : String → Nat → Nat) (a : Ctx) (k : String) :
    alistLookup k (a.map (fun kv => (kv.1, F kv.1 kv.2)))
      = (alistLookup k a).map (F k) := by
  induction a with
  | nil => rfl
  | cons kv rest ih =>
    obtain ⟨k1, v1⟩ := kv
    simp only [List.map_cons, alistLookup]
    by_cases h : k = k1
    · subst h; simp
    · simp [h, ih]

lemma alistLookup_filter (p : String × Nat → Bool) (b : Ctx) (k : String)
    (hp : ∀ v, p (k, v) = true) :
    alistLookup k (b.filter p) = alistLookup k b := by
  induction b with
  | nil => rfl
  | cons kv rest ih =>
    obtain ⟨k1, v1⟩ := kv
    by_cases h : k = k1
    · subst h
      have : p (k, v1) = true := hp v1
      simp [List.filter_cons, this, alistLookup]
    · cases hpk : p (k1, v1) <;>
        simp [List.filter_cons, hpk, alistLookup, h, ih]

lemma alistLookup_mem {β : Type} (k : String) (v : β) :
    ∀ l : List (String × β), alistLookup k l = some v → (k, v) ∈ l := by
  intro l
  induction l with
  | nil => intro h; simp [alistLookup] at h
  | cons kv rest ih =>
    obtain ⟨k1, v1⟩ := kv
    intro h
    simp only [alistLookup] at h
    by_cases hk : k = k1
    · rw [if_pos hk] at h
      cases h
      subst hk
      exact List.mem_cons_self _ _
    · rw [if_neg hk] at h
      exact List.mem_cons_of_mem _ (ih h)

lemma getValue_objAssign (a b : Ctx) (k : String) :
    getValue (objAssign a b) k = orOpt (getValue b k) (getValue a k) := by
  unfold objAssign getValue
  rw [alistLookup_append]
  cases h : alistLookup k a with
  | some v =>
    rw [alistLookup_mapValues (fun k1 v1 => (alistLookup k1 b).getD v1) a k, h]
    cases hb : alistLookup k b <;> simp [orOpt, hb]
  | none =>
    rw [alistLookup_mapValues (fun k1 v1 => (alistLookup k1 b).getD v1) a k, h]
    rw [alistLookup_filter _ b k (fun v => by simp [h])]
    cases hb : alistLookup k b <;> simp [orOpt, hb]

lemma getValue_foldl_contextStep (sets : List MockSet) (c : Ctx) (k : String) :
    getValue (sets.foldl contextStep c) k
      = orOpt (lastContextValue sets k) (getValue c k) := by
  induction sets generalizing c with
  | nil => rfl
  | cons s rest ih =>
    rw [List.foldl_cons, ih]
    show _ = orOpt (lastContextValue (s :: rest) k) _
    cases hs : entryContext s with
    | none =>
      simp only [contextStep, lastContextValue, hs]
      rw [orOpt_none_right]
    | some cc =>
      simp only [contextStep, lastContextValue, hs]
      rw [getValue_objAssign, orOpt_assoc]

end Lemmas

/-- Claim C3: resolving with the empty scenario selection yields exactly the
default mock list, every mock present and in declaration order; likewise the
merged mock list of `getMocksAndInitialContext` with no selected scenarios is
exactly the mocks of the default set. -/
theorem emptySelectionYieldsDefaults (defaults : List Mock) (smap : Scenarios)
    (ds : MockSet) :
    reduceAllMocksForScenarios defaults smap [] = .ok defaults ∧
    (getMocksAndInitialContext ds smap []).map Prod.fst
      = some (entryMocks ds) := by
  exact ⟨rfl, rfl⟩

/-- Claim C7: the pattern `/users/:id` matches the path `/users/42`, binding
the parameter `id` to the decoded string "42", and does not match the path
`/users/42/posts`. -/
theorem pathPatternMatching :
    getMatchAndParams "/users/42" "/users/:id" = (true, [("id", "42")]) ∧
    getMatchAndParams "/users/42/posts" "/users/:id" = (false, []) := by
  exact ⟨rfl, rfl⟩

/-- Claim C9: the method switch of `createRouter` accepts GET, POST, PUT and
DELETE, but throws the unrecognised-method configuration error for PATCH even
though PATCH is a member of the declared `HttpMethod` union (src/types.ts);
when the PATCH mock arrives through a scenario activation, the handler
answers 500 and the previous state is preserved. -/
theorem patchMethodRejectedDespiteDeclaredType :
    httpMethodValues.contains "PATCH" = true ∧
    createRouter [⟨"PATCH", "/a", 1⟩] [] []
      = .error (unrecognisedMethodMessage "PATCH") ∧
    createRouter [⟨"GET", "/a", 1⟩] [] [] = .ok [⟨"GET", "/a", 1⟩] ∧
    createRouter [⟨"POST", "/a", 1⟩] [] [] = .ok [⟨"POST", "/a", 1⟩] ∧
    createRouter [⟨"PUT", "/a", 1⟩] [] [] = .ok [⟨"PUT", "/a", 1⟩] ∧
    createRouter [⟨"DELETE", "/a", 1⟩] [] [] = .ok [⟨"DELETE", "/a", 1⟩] ∧
    modifyScenariosHandler [] [("patched", .arr [⟨"PATCH", "/a", 1⟩])]
        ⟨[], []⟩ (.arr ["patched"])
      = (⟨[], []⟩, ⟨500, .json ⟨unrecognisedMethodMessage "PATCH"⟩⟩) := by
  exact ⟨rfl, rfl, rfl, rfl, rfl, rfl, rfl⟩

/-- Claim C4, counterexample: called with an updater function, `updateContext`
does not return the result of the function verbatim; the keys of the prior
context survive. With prior context a=1 and an updater returning only b=2,
the code yields a=1, b=2 rather than the bare b=2. -/
theorem updaterResultNotVerbatim :
    updateContext [("a", 1)] (.fn (fun _ => [("b", 2)])) ≠ [("b", 2)] := by
  decide

/-- Claim C4 (amended): `updateContext` with a partial object returns the
shallow merge of the prior context with the partial, the partial winning on
key conflicts; with an updater function it returns the shallow merge of the
prior context with the result of applying the updater to the prior context,
the result winning on key conflicts (not the result verbatim). -/
theorem updateContextMergeSemantics (c p : Ctx) (f : Ctx → Ctx) (k : String) :
    getValue (updateContext c (.obj p)) k = orOpt (getValue p k) (getValue c k) ∧
    getValue (updateContext c (.fn f)) k
      = orOpt (getValue (f c) k) (getValue c k) := by
  exact ⟨getValue_objAssign c p k, getValue_objAssign c (f c) k⟩

/-- Default set of the context-merge example of the spec: context a=1. -/
def dsExample : MockSet := .obj none (some [("a", 1)]) []

/-- Scenario entry with context b=2. -/
def scenEntryB : MockSet := .obj none (some [("b", 2)]) []

/-- Scenario entry with context a=3. -/
def scenEntryA : MockSet := .obj none (some [("a", 3)]) []

/-- Scenario map of the context-merge example. -/
def smapExample : Scenarios := [("sb", scenEntryB), ("sa", scenEntryA)]

/-- Claim C5: the initial context is the shallow merge of the context fields
of the default set followed by each selected scenario in selection order: the
value of any key in the computed initial context is the one contributed by
the last entry binding that key (later wins on conflicts). -/
theorem initialContextLaterWins (ds : MockSet) (smap : Scenarios)
    (sel : List String) (sets : List MockSet)
    (hsets : sel.mapM (fun s => alistLookup s smap) = some sets) :
    getMocksAndInitialContext ds smap sel
      = some (mergeMocks (ds :: sets), getInitialContext (ds :: sets)) ∧
    ∀ k, getValue (getInitialContext (ds :: sets)) k
      = lastContextValue (ds :: sets) k := by
  constructor
  · unfold getMocksAndInitialContext
    rw [hsets]
  · intro k
    unfold getInitialContext
    rw [getValue_foldl_contextStep]
    exact orOpt_none_right _

/-- Witness for C5 at the example of the spec: default context a=1 plus
scenario context b=2 gives a=1, b=2, and a later scenario context a=3 gives
a=3, b=2; the key a holds the value of the last entry binding it. -/
theorem initialContextLaterWinsWitness :
    getMocksAndInitialContext dsExample smapExample ["sb", "sa"]
      = some (mergeMocks [dsExample, scenEntryB, scenEntryA],
          getInitialContext [dsExample, scenEntryB, scenEntryA]) ∧
    getInitialContext [dsExample, scenEntryB] = [("a", 1), ("b", 2)] ∧
    getInitialContext [dsExample, scenEntryB, scenEntryA]
      = [("a", 3), ("b", 2)] ∧
    getValue (getInitialContext [dsExample, scenEntryB, scenEntryA]) "a"
      = lastContextValue [dsExample, scenEntryB, scenEntryA] "a" := by
  refine ⟨(initialContextLaterWins dsExample smapExample ["sb", "sa"]
      [scenEntryB, scenEntryA] rfl).1, by decide, by decide,
    (initialContextLaterWins dsExample smapExample ["sb", "sa"]
      [scenEntryB, scenEntryA] rfl).2 "a"⟩

/-- Claim C6: the http matcher selects the first mock in declaration order
whose compiled url pattern matches the full request path and whose method
equals the request method: the returned mock satisfies the predicate, every
mock strictly earlier in the list fails it, and the returned params are those
of the matched mock. No ranking other than declaration order is involved. -/
theorem firstMatchingMockServed (req : HttpRequest) (mocks : List Mock)
    (mk : Mock) (ps : List (String × String))
    (h : getHttpMockAndParams req mocks = (some mk, ps)) :
    matchesReq req mk = true ∧
    ps = (getMatchAndParams req.path mk.url).2 ∧
    ∃ i, ∃ hi : i < mocks.length, mocks.get ⟨i, hi⟩ = mk ∧
      ∀ j, ∀ hj : j < mocks.length, j < i →
        matchesReq req (mocks.get ⟨j, hj⟩) = false := by
  induction mocks with
  | nil => simp [getHttpMockAndParams] at h
  | cons m rest ih =>
    simp only [getHttpMockAndParams] at h
    by_cases hm : matchesReq req m = true
    · rw [if_pos hm] at h
      simp only [Prod.mk.injEq, Option.some.injEq] at h
      obtain ⟨rfl, rfl⟩ := h
      exact ⟨hm, rfl, 0, Nat.succ_pos _, rfl,
        fun j hj hj0 => absurd hj0 (Nat.not_lt_zero j)⟩
    · have hmf : matchesReq req m = false := by simpa using hm
      rw [if_neg hm] at h
      cases rest with
      | nil => simp at h
      | cons m2 rest2 =>
        have h' : getHttpMockAndParams req (m2 :: rest2) = (some mk, ps) := by
          simpa using h
        obtain ⟨hmk, hps, i, hi, hget, hfirst⟩ := ih h'
        refine ⟨hmk, hps, i + 1, Nat.succ_lt_succ hi, hget, ?_⟩
        intro j hj hji
        cases j with
        | zero => exact hmf
        | succ j2 =>
          exact hfirst j2 (Nat.lt_of_succ_lt_succ hj) (Nat.lt_of_succ_lt_succ hji)

/-- Witness for C6: with a POST mock preceding a GET mock on the same url,
a GET request is served the second mock, whose params are empty. -/
theorem firstMatchingMockServedWitness :
    matchesReq ⟨"GET", "/a"⟩ ⟨"GET", "/a", 2⟩ = true ∧
    ([] : List (String × String)) = (getMatchAndParams "/a" "/a").2 := by
  have h := firstMatchingMockServed ⟨"GET", "/a"⟩
    [⟨"POST", "/a", 1⟩, ⟨"GET", "/a", 2⟩] ⟨"GET", "/a", 2⟩ [] rfl
  exact ⟨h.1, h.2.1⟩

/-- Default mock `GET /a -> 1` of the override example. -/
def defaultGetA : Mock := ⟨"GET", "/a", 1⟩

/-- Default mock `GET /b -> 2` of the override example. -/
def defaultGetB : Mock := ⟨"GET", "/b", 2⟩

/-- Scenario mock `GET /a -> 3` of the override example. -/
def scenarioGetA : Mock := ⟨"GET", "/a", 3⟩

/-- Scenario map of the override example. -/
def smapOverride : Scenarios := [("sA", .arr [scenarioGetA])]

/-- Claim C1: with a non-empty selection whose scenario walk produces the
reduced mock list r, the resolved catalog is the defaults not colliding on
(method, url text) with any reduced mock, followed by r; for a default
colliding with some scenario mock, the first catalog mock with that
signature is the first such scenario mock (so a request with that method and
url is served the scenario response, which exists), and a default colliding
with no scenario mock is kept in the catalog. -/
theorem scenarioOverridesDefault
    (defaults : List Mock) (smap : Scenarios) (sel : List String)
    (g : List (String × String)) (r : List Mock)
    (hne : sel ≠ [])
    (hfold : scenarioFold smap sel [] [] = .ok (g, r)) :
    reduceAllMocksForScenarios defaults smap sel
      = .ok (defaults.filter (fun d => !(r.any (fun m => collides m d))) ++ r) ∧
    (∀ dm ∈ defaults, ∀ sm ∈ r, collides sm dm = true →
      findBySig (defaults.filter (fun d => !(r.any (fun m => collides m d))) ++ r)
          dm.method dm.url
        = findBySig r dm.method dm.url ∧
      (findBySig r dm.method dm.url).isSome = true) ∧
    (∀ dm ∈ defaults, (∀ sm ∈ r, collides sm dm = false) →
      dm ∈ defaults.filter (fun d => !(r.any (fun m => collides m d))) ++ r) := by
  have hlen : ¬ sel.length = 0 := by simpa [List.length_eq_zero] using hne
  refine ⟨?_, ?_, ?_⟩
  · unfold reduceAllMocksForScenarios
    rw [if_neg hlen, hfold]
  · intro dm hdm sm hsm hcol
    have hcol2 : sm.url = dm.url ∧ dm.method = sm.method := by
      simpa [collides] using hcol
    constructor
    · unfold findBySig
      rw [List.find?_append]
      have hnone : (defaults.filter
          (fun d => !(r.any (fun m => collides m d)))).find?
            (fun m => m.method == dm.method && m.url == dm.url) = none := by
        rw [List.find?_eq_none]
        intro x hx hpx
        rw [List.mem_filter] at hx
        have hxq : r.any (fun m => collides m x) = false := by
          simpa using hx.2
        have hpx2 : x.method = dm.method ∧ x.url = dm.url := by
          simpa using hpx
        have hsx : collides sm x = true := by
          simp [collides, hcol2.1, hpx2.2, hpx2.1, ← hcol2.2]
        exact absurd hsx (by simpa using List.any_eq_false.mp hxq sm hsm)
      rw [hnone]
      rfl
    · unfold findBySig
      rw [List.find?_isSome]
      exact ⟨sm, hsm, by simp [hcol2.1, ← hcol2.2]⟩
  · intro dm hdm hall
    apply List.mem_append_left
    rw [List.mem_filter]
    refine ⟨hdm, ?_⟩
    have : r.any (fun m => collides m dm) = false :=
      List.any_eq_false.mpr (fun m hm => by simp [hall m hm])
    simp [this]

/-- Witness for C1 at the example of the spec: a default `GET /a -> 1` is
overridden by the scenario mock `GET /a -> 3`, and the default `GET /b -> 2`
survives: the resolved catalog is `GET /b -> 2, GET /a -> 3` and the first
catalog mock with signature `GET /a` is the scenario mock. -/
theorem scenarioOverridesDefaultWitness :
    reduceAllMocksForScenarios [defaultGetA, defaultGetB] smapOverride ["sA"]
      = .ok ([defaultGetA, defaultGetB].filter
          (fun d => !([scenarioGetA].any (fun m => collides m d)))
          ++ [scenarioGetA]) ∧
    findBySig ([defaultGetA, defaultGetB].filter
          (fun d => !([scenarioGetA].any (fun m => collides m d)))
          ++ [scenarioGetA]) "GET" "/a"
      = findBySig [scenarioGetA] "GET" "/a" ∧
    findBySig [scenarioGetA] "GET" "/a" = some scenarioGetA ∧
    reduceAllMocksForScenarios [defaultGetA, defaultGetB] smapOverride ["sA"]
      = .ok [defaultGetB, scenarioGetA] := by
  have h := scenarioOverridesDefault [defaultGetA, defaultGetB] smapOverride
    ["sA"] [] [scenarioGetA] (by simp) rfl
  have h2 := h.2.1 defaultGetA (by simp) scenarioGetA (by simp) (by decide)
  exact ⟨h.1, h2.1, rfl, rfl⟩

section GroupLemmas

/-- If some group key is already bound to a truthy (non-empty) scenario name
and a later selected scenario resolves to an object entry with that key, the
scenario walk ends in an error. -/
lemma scenarioFold_error_of_groupBound (smap : Scenarios) (sel : List String) :
    ∀ (groups : List (String × String)) (acc : List Mock) (k v : String),
      alistLookup k groups = some v → v ≠ "" →
      (∀ s ∈ sel, s ≠ "") →
      (∃ s ∈ sel, ∃ g c m, alistLookup s smap = some (.obj g c m) ∧
        groupKey g = k) →
      ∃ e, scenarioFold smap sel groups acc = .error e := by
  induction sel with
  | nil =>
    intro groups acc k v _ _ _ hex
    obtain ⟨s, hs, _⟩ := hex
    exact absurd hs (List.not_mem_nil s)
  | cons s rest ih =>
    intro groups acc k v hk hv hne hex
    have hne2 : ∀ x ∈ rest, x ≠ "" :=
      fun x hx => hne x (List.mem_cons_of_mem _ hx)
    cases hls : alistLookup s smap with
    | none =>
      obtain ⟨w, hw, g, c, m, hwl, hwk⟩ := hex
      rcases List.mem_cons.mp hw with rfl | hwr
      · rw [hls] at hwl
        simp at hwl
      · simp only [scenarioFold, hls]
        exact ih groups acc k v hk hv hne2 ⟨w, hwr, g, c, m, hwl, hwk⟩
    | some ms =>
      cases ms with
      | arr mocks =>
        obtain ⟨w, hw, g, c, m, hwl, hwk⟩ := hex
        rcases List.mem_cons.mp hw with rfl | hwr
        · rw [hls] at hwl
          simp at hwl
        · simp only [scenarioFold, hls]
          exact ih groups (acc ++ mocks) k v hk hv hne2
            ⟨w, hwr, g, c, m, hwl, hwk⟩
      | obj grp ctx mocks =>
        cases hlg : alistLookup (groupKey grp) groups with
        | some prev =>
          by_cases hprev : prev = ""
          · have hkk : groupKey grp ≠ k := by
              intro hkeq
              rw [hkeq, hk] at hlg
              injection hlg with h2
              exact hv (by rw [h2, hprev])
            have hk2 : alistLookup k ((groupKey grp, s) :: groups) = some v := by
              simp only [alistLookup]
              rw [if_neg (fun hh => hkk hh.symm), hk]
            obtain ⟨w, hw, g, c, m, hwl, hwk⟩ := hex
            rcases List.mem_cons.mp hw with rfl | hwr
            · rw [hls] at hwl
              injection hwl with h2
              injection h2 with hg hc hm
              exact absurd (by rw [hg]; exact hwk) hkk
            · simp only [scenarioFold, hls, hlg, if_pos hprev]
              exact ih _ _ k v hk2 hv hne2 ⟨w, hwr, g, c, m, hwl, hwk⟩
          · exact ⟨conflictMessage s prev (groupKey grp), by
              simp only [scenarioFold, hls, hlg, if_neg hprev]⟩
        | none =>
          have hkk : groupKey grp ≠ k := by
            intro hkeq
            rw [hkeq, hk] at hlg
            cases hlg
          have hk2 : alistLookup k ((groupKey grp, s) :: groups) = some v := by
            simp only [alistLookup]
            rw [if_neg (fun hh => hkk hh.symm), hk]
          obtain ⟨w, hw, g, c, m, hwl, hwk⟩ := hex
          rcases List.mem_cons.mp hw with rfl | hwr
          · rw [hls] at hwl
            injection hwl with h2
            injection h2 with hg hc hm
            exact absurd (by rw [hg]; exact hwk) hkk
          · simp only [scenarioFold, hls, hlg]
            exact ih _ _ k v hk2 hv hne2 ⟨w, hwr, g, c, m, hwl, hwk⟩

/-- Two selected scenarios resolving to object entries with the same group
key force the scenario walk into an error, whatever lies between them,
provided no selected name is the empty string (an empty stored name is falsy
for the truthiness test of the conflict check). -/
lemma scenarioFold_error_of_dupGroup (smap : Scenarios) (mid post : List String)
    (s1 s2 : String) (g1 g2 : Option String) (c1 c2 : Option Ctx)
    (m1 m2 : List Mock)
    (h1 : alistLookup s1 smap = some (.obj g1 c1 m1))
    (h2 : alistLookup s2 smap = some (.obj g2 c2 m2))
    (hg : groupKey g1 = groupKey g2) :
    ∀ (pre : List String) (groups : List (String × String)) (acc : List Mock),
      (∀ s ∈ pre ++ s1 :: mid ++ s2 :: post, s ≠ "") →
      ∃ e, scenarioFold smap (pre ++ s1 :: mid ++ s2 :: post) groups acc
        = .error e := by
  intro pre
  induction pre with
  | nil =>
    intro groups acc hne
    simp only [List.nil_append]
    have hs1ne : s1 ≠ "" := hne s1 (by simp)
    have hnerest : ∀ s ∈ mid ++ s2 :: post, s ≠ "" :=
      fun s hs => hne s (by simp [hs])
    have hbound : alistLookup (groupKey g1)
        ((groupKey g1, s1) :: groups) = some s1 := by
      simp [alistLookup]
    have hwit : ∃ s ∈ mid ++ s2 :: post, ∃ g c m,
        alistLookup s smap = some (.obj g c m) ∧ groupKey g = groupKey g1 :=
      ⟨s2, by simp, g2, c2, m2, h2, hg.symm⟩
    cases hlg : alistLookup (groupKey g1) groups with
    | some prev =>
      by_cases hprev : prev = ""
      · simp only [scenarioFold, h1, hlg, if_pos hprev]
        exact scenarioFold_error_of_groupBound smap (mid ++ s2 :: post)
          ((groupKey g1, s1) :: groups) (acc ++ m1) (groupKey g1) s1
          hbound hs1ne hnerest hwit
      · exact ⟨conflictMessage s1 prev (groupKey g1), by
          simp only [scenarioFold, h1, hlg, if_neg hprev]⟩
    | none =>
      simp only [scenarioFold, h1, hlg]
      exact scenarioFold_error_of_groupBound smap (mid ++ s2 :: post)
        ((groupKey g1, s1) :: groups) (acc ++ m1) (groupKey g1) s1
        hbound hs1ne hnerest hwit
  | cons p pre2 ih =>
    intro groups acc hne
    have hne2 : ∀ s ∈ pre2 ++ s1 :: mid ++ s2 :: post, s ≠ "" :=
      fun s hs => hne s (List.mem_cons_of_mem _ hs)
    simp only [List.cons_append]
    cases hlp : alistLookup p smap with
    | none =>
      simp only [scenarioFold, hlp]
      exact ih groups acc hne2
    | some ms =>
      cases ms with
      | arr mocks =>
        simp only [scenarioFold, hlp]
        exact ih groups (acc ++ mocks) hne2
      | obj grp ctx mocks =>
        cases hlg : alistLookup (groupKey grp) groups with
        | some prev =>
          by_cases hprev : prev = ""
          · simp only [scenarioFold, hlp, hlg, if_pos hprev]
            exact ih _ _ hne2
          · exact ⟨conflictMessage p prev (groupKey grp), by
              simp only [scenarioFold, hlp, hlg, if_neg hprev]⟩
        | none =>
          simp only [scenarioFold, hlp, hlg]
          exact ih _ _ hne2

/-- Any error of the scenario walk is a conflict message naming a selected
scenario, a scenario stored in the groups record or selected, and a group
key. -/
lemma scenarioFold_error_shape (smap : Scenarios) (sel : List String) :
    ∀ (groups : List (String × String)) (acc : List Mock) (e : String),
      scenarioFold smap sel groups acc = .error e →
      ∃ a b k2, e = conflictMessage a b k2 ∧ a ∈ sel ∧
        (b ∈ groups.map Prod.snd ∨ b ∈ sel) := by
  induction sel with
  | nil =>
    intro groups acc e h
    simp [scenarioFold] at h
  | cons s rest ih =>
    intro groups acc e h
    cases hls : alistLookup s smap with
    | none =>
      simp only [scenarioFold, hls] at h
      obtain ⟨a, b, k2, he, ha, hb⟩ := ih groups acc e h
      exact ⟨a, b, k2, he, List.mem_cons_of_mem _ ha,
        hb.imp id (List.mem_cons_of_mem _)⟩
    | some ms =>
      cases ms with
      | arr mocks =>
        simp only [scenarioFold, hls] at h
        obtain ⟨a, b, k2, he, ha, hb⟩ := ih groups (acc ++ mocks) e h
        exact ⟨a, b, k2, he, List.mem_cons_of_mem _ ha,
          hb.imp id (List.mem_cons_of_mem _)⟩
      | obj grp ctx mocks =>
        cases hlg : alistLookup (groupKey grp) groups with
        | some prev =>
          by_cases hprev : prev = ""
          · simp only [scenarioFold, hls, hlg, if_pos hprev] at h
            obtain ⟨a, b, k2, he, ha, hb⟩ := ih _ _ e h
            refine ⟨a, b, k2, he, List.mem_cons_of_mem _ ha, ?_⟩
            rcases hb with hbg | hbr
            · simp only [List.map_cons] at hbg
              rcases List.mem_cons.mp hbg with rfl | hbg2
              · exact Or.inr (List.mem_cons_self _ _)
              · exact Or.inl hbg2
            · exact Or.inr (List.mem_cons_of_mem _ hbr)
          · simp only [scenarioFold, hls, hlg, if_neg hprev] at h
            injection h with he
            refine ⟨s, prev, groupKey grp, he.symm,
              List.mem_cons_self _ _, Or.inl ?_⟩
            exact List.mem_map_of_mem Prod.snd
              (alistLookup_mem (groupKey grp) prev groups hlg)
        | none =>
          simp only [scenarioFold, hls, hlg] at h
          obtain ⟨a, b, k2, he, ha, hb⟩ := ih _ _ e h
          refine ⟨a, b, k2, he, List.mem_cons_of_mem _ ha, ?_⟩
          rcases hb with hbg | hbr
          · simp only [List.map_cons] at hbg
            rcases List.mem_cons.mp hbg with rfl | hbg2
            · exact Or.inr (List.mem_cons_self _ _)
            · exact Or.inl hbg2
          · exact Or.inr (List.mem_cons_of_mem _ hbr)

/-- A selection resolving only to bare mock arrays never makes the scenario
walk fail. -/
lemma scenarioFold_ok_of_arrays (smap2 : Scenarios) (sel : List String) :
    ∀ (groups : List (String × String)) (acc : List Mock),
      (∀ s ∈ sel, ∀ entry, alistLookup s smap2 = some entry →
        ∃ ms, entry = MockSet.arr ms) →
      ∃ res, scenarioFold smap2 sel groups acc = .ok res := by
  induction sel with
  | nil =>
    intro groups acc _
    exact ⟨(groups, acc), rfl⟩
  | cons s rest ih =>
    intro groups acc h
    cases hls : alistLookup s smap2 with
    | none =>
      simp only [scenarioFold, hls]
      exact ih groups acc (fun x hx => h x (List.mem_cons_of_mem _ hx))
    | some ms =>
      obtain ⟨mocks, rfl⟩ := h s (List.mem_cons_self _ _) ms hls
      simp only [scenarioFold, hls]
      exact ih groups (acc ++ mocks) (fun x hx => h x (List.mem_cons_of_mem _ hx))

/-- When every requested name is a configured scenario name, the validation
loop of `PUT /modify-scenarios` finds no unknown name. -/
lemma firstUnknown_eq_none (known : List String) :
    ∀ names : List String, (∀ s ∈ names, includesName known s = true) →
      firstUnknown names known = none := by
  intro names
  induction names with
  | nil => intro _; rfl
  | cons n rest ih =>
    intro h
    have hn := h n (List.mem_cons_self _ _)
    simp only [firstUnknown, hn, if_true]
    exact ih (fun s hs => h s (List.mem_cons_of_mem _ hs))

/-- When some requested name is not a configured scenario name, the
validation loop of `PUT /modify-scenarios` reports an unknown name. -/
lemma firstUnknown_isSome (known : List String) :
    ∀ (names : List String) (s0 : String), s0 ∈ names →
      includesName known s0 = false →
      ∃ s2, firstUnknown names known = some s2 := by
  intro names
  induction names with
  | nil =>
    intro s0 h _
    exact absurd h (List.not_mem_nil s0)
  | cons n rest ih =>
    intro s0 hmem hfalse
    by_cases hn : includesName known n = true
    · rcases List.mem_cons.mp hmem with rfl | hr
      · rw [hn] at hfalse
        cases hfalse
      · obtain ⟨s2, hs2⟩ := ih s0 hr hfalse
        exact ⟨s2, by simp only [firstUnknown, hn, if_true, hs2]⟩
    · have hn2 : includesName known n = false := by simpa using hn
      exact ⟨n, by simp only [firstUnknown, hn2, Bool.false_eq_true,
        if_false]⟩

end GroupLemmas

/-- Scenario map with two scenarios sharing group g. -/
def smapConflict : Scenarios :=
  [("s1", .obj (some "g") none []), ("s2", .obj (some "g") none [])]

/-- Claim C2 (amended): a selection of known, non-empty names containing two
scenarios declaring the same non-null group makes resolution fail with a
configuration error whose message is a conflict message naming two selected
scenarios and a group key, and the activation handler answers 500 with that
message while leaving the previous selection and router untouched. The
non-empty-name condition is forced by the counterexample: an empty stored
name is falsy for the truthiness check and raises no conflict. -/
theorem groupConflictRejected
    (defaults : List Mock) (smap : Scenarios) (st : ServerState)
    (pre mid post : List String) (s1 s2 gname : String)
    (c1 c2 : Option Ctx) (m1 m2 : List Mock)
    (h1 : alistLookup s1 smap = some (.obj (some gname) c1 m1))
    (h2 : alistLookup s2 smap = some (.obj (some gname) c2 m2))
    (hne : ∀ s ∈ pre ++ s1 :: mid ++ s2 :: post, s ≠ "")
    (hknown : ∀ s ∈ pre ++ s1 :: mid ++ s2 :: post,
        includesName (scenarioNames smap) s = true) :
    ∃ e, reduceAllMocksForScenarios defaults smap
        (pre ++ s1 :: mid ++ s2 :: post) = .error e ∧
      (∃ a b k2, e = conflictMessage a b k2 ∧
        a ∈ pre ++ s1 :: mid ++ s2 :: post ∧
        b ∈ pre ++ s1 :: mid ++ s2 :: post) ∧
      modifyScenariosHandler defaults smap st
          (.arr (pre ++ s1 :: mid ++ s2 :: post))
        = (st, ⟨500, .json ⟨e⟩⟩) := by
  obtain ⟨e, hfold⟩ := scenarioFold_error_of_dupGroup smap mid post s1 s2
    (some gname) (some gname) c1 c2 m1 m2 h1 h2 rfl pre [] [] hne
  have hlen : ¬ (pre ++ s1 :: mid ++ s2 :: post).length = 0 := by
    simp only [List.length_append, List.length_cons]
    omega
  have hred : reduceAllMocksForScenarios defaults smap
      (pre ++ s1 :: mid ++ s2 :: post) = .error e := by
    unfold reduceAllMocksForScenarios
    rw [if_neg hlen, hfold]
  refine ⟨e, hred, ?_, ?_⟩
  · obtain ⟨a, b, k2, hek, ha, hb⟩ :=
      scenarioFold_error_shape smap (pre ++ s1 :: mid ++ s2 :: post) [] [] e hfold
    refine ⟨a, b, k2, hek, ha, ?_⟩
    rcases hb with hbg | hbs
    · simp at hbg
    · exact hbs
  · have hfu := firstUnknown_eq_none (scenarioNames smap) _ hknown
    have hcr : createRouter defaults smap (pre ++ s1 :: mid ++ s2 :: post)
        = .error e := by
      unfold createRouter
      rw [hred]
    simp only [modifyScenariosHandler, hfu, hcr]

/-- Witness for C2: selecting the two scenarios of group g answers 500 and
leaves the empty state untouched. -/
theorem groupConflictRejectedWitness :
    (modifyScenariosHandler [] smapConflict ⟨[], []⟩ (.arr ["s1", "s2"])).1
      = ⟨[], []⟩ ∧
    (modifyScenariosHandler [] smapConflict ⟨[], []⟩ (.arr ["s1", "s2"])).2.status
      = 500 := by
  obtain ⟨e, hred, hshape, hhandler⟩ := groupConflictRejected [] smapConflict
    ⟨[], []⟩ [] [] [] "s1" "s2" "g" none none [] [] rfl rfl
    (by decide) (by decide)
  simp only [List.cons_append, List.nil_append] at hhandler
  rw [hhandler]
  exact ⟨rfl, rfl⟩

/-- Scenario map with two scenarios of group g, the first named by the empty
string. -/
def smapEmptyName : Scenarios :=
  [("", .obj (some "g") none []), ("s2", .obj (some "g") none [])]

/-- Claim C2, counterexample: two selected scenarios declare the same
non-null group g, yet resolution succeeds and the activation handler answers
204 and swaps the selection: the first scenario of the group is named the
empty string, so the name stored in the groups record is falsy and the
truthiness check raises no error. The claim as stated, which promises a
ConfigurationError and a 500 for every such selection, fails here. -/
theorem groupConflictNotAlwaysRejected :
    exceptIsError (reduceAllMocksForScenarios [] smapEmptyName ["", "s2"])
      = false ∧
    (modifyScenariosHandler [] smapEmptyName ⟨[], []⟩
        (.arr ["", "s2"])).2.status = 204 ∧
    (modifyScenariosHandler [] smapEmptyName ⟨[], []⟩
        (.arr ["", "s2"])).1 = ⟨["", "s2"], []⟩ :=
  ⟨rfl, rfl, rfl⟩

/-- Scenario map with two object-form scenarios that both omit the group. -/
def smapUngrouped : Scenarios :=
  [("u1", .obj none none []), ("u2", .obj none none [])]

/-- Scenario map with two ungrouped object-form scenarios, the first named by
the empty string. -/
def smapUngroupedEmpty : Scenarios :=
  [("", .obj none none []), ("u2", .obj none none [])]

/-- Claim C10, counterexample: two selected object-form scenarios both omit
the group, yet resolution succeeds: the first is named the empty string, so
the value stored under the key "undefined" is falsy and the truthiness check
raises no error. The claim as stated, which says resolution throws for every
such selection, fails here. -/
theorem ungroupedEmptyNameNoConflict :
    exceptIsError (reduceAllMocksForScenarios [] smapUngroupedEmpty
      ["", "u2"]) = false :=
  rfl

/-- Claim C10 (amended): two selected scenarios with non-empty names given
in object form that both omit the group field make resolution fail, because
the undefined group coerces to the object key "undefined" and both are
treated as members of that one group; a selection resolving only to bare
mock arrays, in contrast, always resolves successfully. The non-empty-name
condition is forced by the counterexample: an empty stored name is falsy for
the truthiness check and raises no conflict. -/
theorem ungroupedObjectScenariosConflict
    (defaults : List Mock) (smap : Scenarios)
    (pre mid post : List String) (s1 s2 : String)
    (c1 c2 : Option Ctx) (m1 m2 : List Mock)
    (h1 : alistLookup s1 smap = some (.obj none c1 m1))
    (h2 : alistLookup s2 smap = some (.obj none c2 m2))
    (hne : ∀ s ∈ pre ++ s1 :: mid ++ s2 :: post, s ≠ "") :
    (∃ e, reduceAllMocksForScenarios defaults smap
        (pre ++ s1 :: mid ++ s2 :: post) = .error e) ∧
    ∀ (defaults2 : List Mock) (smap2 : Scenarios) (sel2 : List String),
      (∀ s ∈ sel2, ∀ entry, alistLookup s smap2 = some entry →
        ∃ ms, entry = MockSet.arr ms) →
      ∃ res, reduceAllMocksForScenarios defaults2 smap2 sel2 = .ok res := by
  constructor
  · obtain ⟨e, hfold⟩ := scenarioFold_error_of_dupGroup smap mid post s1 s2
      none none c1 c2 m1 m2 h1 h2 rfl pre [] [] hne
    have hlen : ¬ (pre ++ s1 :: mid ++ s2 :: post).length = 0 := by
      simp only [List.length_append, List.length_cons]
      omega
    refine ⟨e, ?_⟩
    unfold reduceAllMocksForScenarios
    rw [if_neg hlen, hfold]
  · intro defaults2 smap2 sel2 harr
    cases sel2 with
    | nil => exact ⟨defaults2, rfl⟩
    | cons s rest =>
      obtain ⟨⟨gr, rm⟩, hok⟩ :=
        scenarioFold_ok_of_arrays smap2 (s :: rest) [] [] harr
      refine ⟨defaults2.filter
          (fun dm => !(rm.any (fun m => collides m dm))) ++ rm, ?_⟩
      unfold reduceAllMocksForScenarios
      rw [if_neg (by simp), hok]

/-- Witness for C10: selecting the two ungrouped object-form scenarios fails,
while selecting a bare-array scenario succeeds. -/
theorem ungroupedObjectScenariosConflictWitness :
    exceptIsError (reduceAllMocksForScenarios [] smapUngrouped ["u1", "u2"])
      = true ∧
    exceptIsError (reduceAllMocksForScenarios []
        [("plain", MockSet.arr [])] ["plain"]) = false := by
  obtain ⟨⟨e, he⟩, hfree⟩ := ungroupedObjectScenariosConflict [] smapUngrouped
    [] [] [] "u1" "u2" none none [] [] rfl rfl (by decide)
  constructor
  · simp only [List.cons_append, List.nil_append] at he
    rw [he]
    rfl
  · have harr : ∀ s ∈ ["plain"], ∀ entry,
        alistLookup s [("plain", MockSet.arr [])] = some entry →
        ∃ ms, entry = MockSet.arr ms := by
      intro s hs entry hent
      simp only [List.mem_singleton] at hs
      subst hs
      have hl : alistLookup "plain" [("plain", MockSet.arr [])]
          = some (MockSet.arr []) := rfl
      rw [hl] at hent
      injection hent with h3
      exact ⟨[], h3.symm⟩
    obtain ⟨res, hres⟩ := hfree [] [("plain", MockSet.arr [])] ["plain"] harr
    rw [hres]
    rfl

/-- Scenario map with two scenarios sharing group h, for the C8
counterexample. -/
def smapConflict8 : Scenarios :=
  [("t1", .obj (some "h") none []), ("t2", .obj (some "h") none [])]

/-- Simple scenario map with one bare-array scenario. -/
def smapSimple : Scenarios := [("w1", .arr [⟨"GET", "/a", 1⟩])]

/-- Claim C8, counterexample: every name of the request body exists in the
configured scenario map, yet the handler answers 500 (the resolution throws
a group conflict), not 204; the state is nevertheless unchanged. The claim,
as stated, promises 204 whenever every name exists. -/
theorem modifyScenariosNotAlways204 :
    includesName (scenarioNames smapConflict8) "t1" = true ∧
    includesName (scenarioNames smapConflict8) "t2" = true ∧
    (modifyScenariosHandler [] smapConflict8 ⟨[], []⟩
        (.arr ["t1", "t2"])).2.status = 500 ∧
    (modifyScenariosHandler [] smapConflict8 ⟨[], []⟩
        (.arr ["t1", "t2"])).1 = ⟨[], []⟩ :=
  ⟨rfl, rfl, rfl, rfl⟩

/-- Claim C8 (amended): the handler answers 400 with a message when the body
is not an array; 400 naming an unknown scenario when the body contains one
(the first such, per the validation loop); 204 with selection and router
swapped when every name exists and the new router builds; and 500 with the
thrown message when router construction fails — the state unchanged in every
failure case. -/
theorem modifyScenariosSpec (defaults : List Mock) (smap : Scenarios)
    (st : ServerState) (names : List String) :
    modifyScenariosHandler defaults smap st .notArray
        = (st, ⟨400, .json ⟨notArrayMessage⟩⟩) ∧
    (∀ s, firstUnknown names (scenarioNames smap) = some s →
      modifyScenariosHandler defaults smap st (.arr names)
        = (st, ⟨400, .json ⟨doesNotExistMessage s⟩⟩)) ∧
    (∀ s0 ∈ names, includesName (scenarioNames smap) s0 = false →
      ∃ s2, modifyScenariosHandler defaults smap st (.arr names)
        = (st, ⟨400, .json ⟨doesNotExistMessage s2⟩⟩)) ∧
    (∀ r, (∀ s ∈ names, includesName (scenarioNames smap) s = true) →
      createRouter defaults smap names = .ok r →
      modifyScenariosHandler defaults smap st (.arr names)
        = (⟨names, r⟩, ⟨204, .empty⟩)) ∧
    (∀ e, (∀ s ∈ names, includesName (scenarioNames smap) s = true) →
      createRouter defaults smap names = .error e →
      modifyScenariosHandler defaults smap st (.arr names)
        = (st, ⟨500, .json ⟨e⟩⟩)) := by
  refine ⟨rfl, ?_, ?_, ?_, ?_⟩
  · intro s hs
    simp only [modifyScenariosHandler, hs]
  · intro s0 hs0 hfalse
    obtain ⟨s2, hs2⟩ :=
      firstUnknown_isSome (scenarioNames smap) names s0 hs0 hfalse
    exact ⟨s2, by simp only [modifyScenariosHandler, hs2]⟩
  · intro r hall hok
    have hfu := firstUnknown_eq_none (scenarioNames smap) names hall
    simp only [modifyScenariosHandler, hfu, hok]
  · intro e hall herr
    have hfu := firstUnknown_eq_none (scenarioNames smap) names hall
    simp only [modifyScenariosHandler, hfu, herr]

/-- Witness for C8 (amended): activating the existing scenario w1 answers
204 and swaps selection and router; requesting an unknown name answers 400
and keeps the prior (empty) state. -/
theorem modifyScenariosSpecWitness :
    modifyScenariosHandler [] smapSimple ⟨[], []⟩ (.arr ["w1"])
      = (⟨["w1"], [⟨"GET", "/a", 1⟩]⟩, ⟨204, .empty⟩) ∧
    modifyScenariosHandler [] smapSimple ⟨[], []⟩ (.arr ["nope"])
      = (⟨[], []⟩, ⟨400, .json ⟨doesNotExistMessage "nope"⟩⟩) :=
  ⟨(modifyScenariosSpec [] smapSimple ⟨[], []⟩ ["w1"]).2.2.2.1
      [⟨"GET", "/a", 1⟩] (by decide) rfl,
    (modifyScenariosSpec [] smapSimple ⟨[], []⟩ ["nope"]).2.1 "nope" rfl⟩

end DataMocksServer
